import Mathlib

/-
Verification of the dispatch core of the `tower-fallthrough-filter` crate.

The crate is a binary request-dispatch combinator: a predicate (`Filter` /
`AsyncFilter`) decides whether a request goes to the "primary" (filtered)
service or falls through to the "secondary" (inner) service.

Shallow embedding conventions:
  * A Rust `Future` is modelled coalgebraically as a state type together with
    a step function `state → state × MPoll output` (or, when the future can
    panic, `state → Except String (state × MPoll output)`, a panic being an
    `Except.error` carrying the panic message).
  * A tower `Service` instance is modelled by its state type `σ` together
    with its `call : σ → Request → σ × FutureState` method (Rust `call` takes
    `&mut self`, hence the explicit state passing) and, where needed, its
    `poll_ready : σ → σ × MPoll (Except E Unit)` method.
  * The embedded operations are parametric in these step functions, mirroring
    the Rust code's genericity over the `Service`/`Future` traits.
-/

/-- Outcome of polling a future once: `Poll::Ready(a)` or `Poll::Pending`. -/
inductive MPoll (α : Type) : Type
  | ready (a : α) : MPoll α
  | pending : MPoll α
  deriving DecidableEq

/-- The `futures::future::Either` tagged union used by the crate to tag which
service's future was selected (`Left` = primary/filtered, `Right` =
secondary/inner). -/
inductive MEither (α β : Type) : Type
  | left (a : α) : MEither α β
  | right (b : β) : MEither α β
  deriving DecidableEq

/-- State of `futures::future::Ready` (created by `futures::future::ready`),
the future type used by the crate's own `TestService`. Its `poll` takes the
stored value out; polling it again panics. -/
structure ReadyFut (α : Type) : Type where
  state : Option α
  deriving DecidableEq

/-- Poll of `futures::future::Ready`: `self.0.take().expect(..)` — ready with
the stored value the first time, panic on any later poll. -/
def ReadyFut.poll {α : Type} (f : ReadyFut α) : Except String (ReadyFut α × MPoll α) :=
  match f.state with
  | some a => Except.ok (ReadyFut.mk none, MPoll.ready a)
  | none => Except.error "Ready polled after completion"

/-- A future that stays pending for `remaining` polls and then resolves to
`val`. Used to instantiate "a predicate whose pending computation requires N
poll cycles to resolve". -/
structure DelayFut (α : Type) : Type where
  remaining : Nat
  val : α
  deriving DecidableEq

/-- Polling a `DelayFut`: pending while the counter is positive (decrementing
it), ready with the value once it reaches zero. -/
def DelayFut.poll {α : Type} (f : DelayFut α) : DelayFut α × MPoll α :=
  match f.remaining with
  | 0 => (f, MPoll.ready f.val)
  | Nat.succ k => (DelayFut.mk k f.val, MPoll.pending)

/-- The crate's `TestService<T>` (src/test_util.rs): its state is the response
value it always returns; `call` ignores the request and returns
`futures::future::ready(Ok(value))`. Its error type is `Infallible`,
embedded as `Empty`. -/
def TestService.call {V T : Type} (self : V) (_req : T) :
    V × ReadyFut (Except Empty V) :=
  (self, ReadyFut.mk (some (Except.ok self)))

/-- The synchronous `FilterService` (src/lib.rs): a predicate value, the
filtered (primary) service and the inner (secondary) service. -/
structure FilterService (F σS σI : Type) : Type where
  filter : F
  service : σS
  inner : σI
  deriving DecidableEq

/-- `FilterService::call` (src/lib.rs, lines 205–211): evaluate
`self.filter.matches(&req)`; if true, `Either::Left(self.service.call(req))`,
otherwise `Either::Right(self.inner.call(req))`. `matchesF`, `callS` and
`callI` stand for the trait methods of the predicate and the two services
(`matchesF` because `matches` is reserved in Lean). -/
def FilterService.call {F σS σI T φS φI : Type}
    (matchesF : F → T → Bool)
    (callS : σS → T → σS × φS) (callI : σI → T → σI × φI)
    (self : FilterService F σS σI) (req : T) :
    FilterService F σS σI × MEither φS φI :=
  if matchesF self.filter req then
    FilterService.mk self.filter (callS self.service req).1 self.inner
      |> fun st => (st, MEither.left (callS self.service req).2)
  else
    FilterService.mk self.filter self.service (callI self.inner req).1
      |> fun st => (st, MEither.right (callI self.inner req).2)

/-- `FilterService::poll_ready` (src/lib.rs, lines 196–203):
`ready!(self.service.poll_ready(cx))?; ready!(self.inner.poll_ready(cx))?;
Poll::Ready(Ok(()))`. -/
def FilterService.poll_ready {F σS σI E : Type}
    (prS : σS → σS × MPoll (Except E Unit))
    (prI : σI → σI × MPoll (Except E Unit))
    (self : FilterService F σS σI) :
    FilterService F σS σI × MPoll (Except E Unit) :=
  match prS self.service with
  | (s', MPoll.pending) =>
      (FilterService.mk self.filter s' self.inner, MPoll.pending)
  | (s', MPoll.ready (Except.error e)) =>
      (FilterService.mk self.filter s' self.inner, MPoll.ready (Except.error e))
  | (s', MPoll.ready (Except.ok _)) =>
      match prI self.inner with
      | (i', MPoll.pending) =>
          (FilterService.mk self.filter s' i', MPoll.pending)
      | (i', MPoll.ready (Except.error e)) =>
          (FilterService.mk self.filter s' i', MPoll.ready (Except.error e))
      | (i', MPoll.ready (Except.ok _)) =>
          (FilterService.mk self.filter s' i', MPoll.ready (Except.ok ()))

/-- C1: the synchronous dispatcher's `call` evaluates the predicate once on
the request and branches on that single Boolean: when it is `true` the result
is exactly one invocation of the primary service on the very same request,
tagged `Either::Left`, with the secondary service's state untouched; when it
is `false` the roles are swapped and the tag is `Either::Right`. In this pure
embedding "evaluated exactly once / never invoked" is expressed by the result
being exactly one application of the selected `call` method to the original
state and request, while the non-selected service's state occurs unchanged. -/
theorem filterService_call_exclusive_dispatch {F σS σI T φS φI : Type}
    (matchesF : F → T → Bool)
    (callS : σS → T → σS × φS) (callI : σI → T → σI × φI)
    (self : FilterService F σS σI) (req : T) :
    (matchesF self.filter req = true →
      FilterService.call matchesF callS callI self req =
        (FilterService.mk self.filter (callS self.service req).1 self.inner,
         MEither.left (callS self.service req).2)) ∧
    (matchesF self.filter req = false →
      FilterService.call matchesF callS callI self req =
        (FilterService.mk self.filter self.service (callI self.inner req).1,
         MEither.right (callI self.inner req).2)) := by
  constructor <;> intro h <;> simp [FilterService.call, h]

/-- Witness for C1: a concrete dispatch through the primary branch. -/
theorem filterService_call_exclusive_dispatch_witness :
    FilterService.call (fun (f : Bool) (_ : Nat) => f)
        (fun (s : Nat) (r : Nat) => (s + 1, r)) (fun (s : Nat) (r : Nat) => (s + 1, r))
        (FilterService.mk true 10 20) 5 =
      (FilterService.mk true 11 20, MEither.left 5) :=
  (filterService_call_exclusive_dispatch (fun f _ => f) _ _ _ 5).1 rfl

/-- The hand-rolled future `SelectServiceAndCallFut` (src/futures.rs): the
predicate's future `condition`, the still-owned request `value`, the two
cloned services, and the selected handler's future once one has been
invoked. The source maintains the invariant that `value` and `services` are
`Some` whenever `future` is `None`. -/
structure SelectServiceAndCallFut (γ T σA σB φA φB : Type) : Type where
  condition : γ
  value : Option T
  services : Option (σA × σB)
  future : Option (MEither φA φB)
  deriving DecidableEq

/-- `SelectServiceAndCallFut::new` (src/futures.rs, lines 39–46): store the
condition future, the request wrapped in `Some`, both services wrapped in
`Some`, and no handler future yet. -/
def SelectServiceAndCallFut.new {γ T σA σB φA φB : Type}
    (condition : γ) (value : T) (service_a : σA) (service_b : σB) :
    SelectServiceAndCallFut γ T σA σB φA φB :=
  SelectServiceAndCallFut.mk condition (some value) (some (service_a, service_b)) none

/-- `SelectServiceAndCallFut::poll` (src/futures.rs, lines 58–90). If a
handler future is already stored, poll it and return its output. Otherwise
poll the condition (`ready!`: pending propagates pending); once it resolves,
take the request and the services out of their `Option` slots (the two
`expect` calls are the "Invariant violation" panics, modelled as
`Except.error`), invoke `service_a.call` or `service_b.call` according to the
Boolean, store the resulting future as `Either::Left`/`Either::Right`, and
poll it within the same call. `pollC` is the condition future's poll;
`callA`/`callB` are the two services' `call` methods; `pollA`/`pollB` are
their futures' polls (possibly panicking, hence `Except`-valued). -/
def SelectServiceAndCallFut.poll {γ T σA σB φA φB R E : Type}
    (pollC : γ → γ × MPoll Bool)
    (callA : σA → T → σA × φA) (callB : σB → T → σB × φB)
    (pollA : φA → Except String (φA × MPoll (Except E R)))
    (pollB : φB → Except String (φB × MPoll (Except E R)))
    (s : SelectServiceAndCallFut γ T σA σB φA φB) :
    Except String (SelectServiceAndCallFut γ T σA σB φA φB × MPoll (Except E R)) :=
  match s.future with
  | some (MEither.left fa) =>
      (pollA fa).map (fun r =>
        (SelectServiceAndCallFut.mk s.condition s.value s.services
           (some (MEither.left r.1)), r.2))
  | some (MEither.right fb) =>
      (pollB fb).map (fun r =>
        (SelectServiceAndCallFut.mk s.condition s.value s.services
           (some (MEither.right r.1)), r.2))
  | none =>
      match pollC s.condition with
      | (c', MPoll.pending) =>
          Except.ok (SelectServiceAndCallFut.mk c' s.value s.services none,
            MPoll.pending)
      | (c', MPoll.ready select) =>
          match s.value with
          | none => Except.error "Invariant violation: value is None when future is None"
          | some value =>
              match s.services with
              | none => Except.error "Invariant violation: services is None when future is None"
              | some svcs =>
                  if select then
                    (pollA (callA svcs.1 value).2).map (fun r =>
                      (SelectServiceAndCallFut.mk c' none none
                         (some (MEither.left r.1)), r.2))
                  else
                    (pollB (callB svcs.2 value).2).map (fun r =>
                      (SelectServiceAndCallFut.mk c' none none
                         (some (MEither.right r.1)), r.2))

/-- Iterated polling of `SelectServiceAndCallFut`: final state plus the list
of the poll outputs, or the first panic. -/
def SelectServiceAndCallFut.pollTrace {γ T σA σB φA φB R E : Type}
    (pollC : γ → γ × MPoll Bool)
    (callA : σA → T → σA × φA) (callB : σB → T → σB × φB)
    (pollA : φA → Except String (φA × MPoll (Except E R)))
    (pollB : φB → Except String (φB × MPoll (Except E R))) :
    Nat → SelectServiceAndCallFut γ T σA σB φA φB →
    Except String (SelectServiceAndCallFut γ T σA σB φA φB × List (MPoll (Except E R)))
  | 0, s => Except.ok (s, [])
  | Nat.succ n, s =>
      match SelectServiceAndCallFut.poll pollC callA callB pollA pollB s with
      | Except.error m => Except.error m
      | Except.ok r =>
          match SelectServiceAndCallFut.pollTrace pollC callA callB pollA pollB n r.1 with
          | Except.error m => Except.error m
          | Except.ok rest => Except.ok (rest.1, r.2 :: rest.2)

/-- States of `SelectServiceAndCallFut` reachable from `new` by successful
(non-panicking) polls, for a fixed set of trait-method instantiations. -/
inductive SelectReachable {γ T σA σB φA φB R E : Type}
    (pollC : γ → γ × MPoll Bool)
    (callA : σA → T → σA × φA) (callB : σB → T → σB × φB)
    (pollA : φA → Except String (φA × MPoll (Except E R)))
    (pollB : φB → Except String (φB × MPoll (Except E R))) :
    SelectServiceAndCallFut γ T σA σB φA φB → Prop
  | init (c : γ) (v : T) (sa : σA) (sb : σB) :
      SelectReachable pollC callA callB pollA pollB
        (SelectServiceAndCallFut.new c v sa sb)
  | step (s s' : SelectServiceAndCallFut γ T σA σB φA φB) (p : MPoll (Except E R)) :
      SelectReachable pollC callA callB pollA pollB s →
      SelectServiceAndCallFut.poll pollC callA callB pollA pollB s = Except.ok (s', p) →
      SelectReachable pollC callA callB pollA pollB s'

/-- The `AsyncFilterService` dispatcher (src/async_feature.rs): an async
predicate value and the two services. -/
structure AsyncFilterService (F σS σI : Type) : Type where
  filter : F
  service : σS
  inner : σI
  deriving DecidableEq

/-- `AsyncFilterService::poll_ready` (src/async_feature.rs, lines 155–162),
textually the same code as the synchronous `FilterService::poll_ready`. -/
def AsyncFilterService.poll_ready {F σS σI E : Type}
    (prS : σS → σS × MPoll (Except E Unit))
    (prI : σI → σI × MPoll (Except E Unit))
    (self : AsyncFilterService F σS σI) :
    AsyncFilterService F σS σI × MPoll (Except E Unit) :=
  match prS self.service with
  | (s', MPoll.pending) =>
      (AsyncFilterService.mk self.filter s' self.inner, MPoll.pending)
  | (s', MPoll.ready (Except.error e)) =>
      (AsyncFilterService.mk self.filter s' self.inner, MPoll.ready (Except.error e))
  | (s', MPoll.ready (Except.ok _)) =>
      match prI self.inner with
      | (i', MPoll.pending) =>
          (AsyncFilterService.mk self.filter s' i', MPoll.pending)
      | (i', MPoll.ready (Except.error e)) =>
          (AsyncFilterService.mk self.filter s' i', MPoll.ready (Except.error e))
      | (i', MPoll.ready (Except.ok _)) =>
          (AsyncFilterService.mk self.filter s' i', MPoll.ready (Except.ok ()))

/-- `AsyncFilterService::call` (src/async_feature.rs, lines 164–171): obtain
the predicate future `self.filter.matches(&req)`, clone both services, and
build the state machine with `SelectServiceAndCallFut::new`. `matchesF` is
the `AsyncFilter::matches` trait method; `cloneS`/`cloneI` are the two
services' `Clone::clone` methods. -/
def AsyncFilterService.call {F σS σI T γ φS φI : Type}
    (matchesF : F → T → γ) (cloneS : σS → σS) (cloneI : σI → σI)
    (self : AsyncFilterService F σS σI) (req : T) :
    AsyncFilterService F σS σI × SelectServiceAndCallFut γ T σS σI φS φI :=
  (self,
   SelectServiceAndCallFut.new (matchesF self.filter req) req
     (cloneS self.service) (cloneI self.inner))

/-- State machine of the compiler-generated future for the `async move` block
in the boxed implementation of `AsyncFilterService::call` (src/lib.rs, lines
383–395): `if matches.await { service.call(req).await } else
{ inner.call(req).await }`. Before the first await it holds the predicate
future, the request and the two cloned services; after the predicate resolves
it holds only the selected handler's future; after producing its output it is
complete and must not be polled again. -/
inductive BoxedCallFut (γ T σA σB φA φB : Type) : Type
  | awaitingCond (cond : γ) (req : T) (service : σA) (inner : σB) :
      BoxedCallFut γ T σA σB φA φB
  | awaitingFut (fut : MEither φA φB) : BoxedCallFut γ T σA σB φA φB
  | done : BoxedCallFut γ T σA σB φA φB
  deriving DecidableEq

/-- Poll of the `async move` block of the boxed `AsyncFilterService::call`
(src/lib.rs, lines 388–394): await the predicate future; once it resolves,
call the selected service with the request and await the returned future
(its first poll happens within the same scheduler turn, as `.await`
compiles to an immediate poll); a completed async block panics if polled
again. -/
def BoxedCallFut.poll {γ T σA σB φA φB R E : Type}
    (pollC : γ → γ × MPoll Bool)
    (callA : σA → T → σA × φA) (callB : σB → T → σB × φB)
    (pollA : φA → Except String (φA × MPoll (Except E R)))
    (pollB : φB → Except String (φB × MPoll (Except E R))) :
    BoxedCallFut γ T σA σB φA φB →
    Except String (BoxedCallFut γ T σA σB φA φB × MPoll (Except E R))
  | BoxedCallFut.awaitingCond c req sa sb =>
      match pollC c with
      | (c', MPoll.pending) =>
          Except.ok (BoxedCallFut.awaitingCond c' req sa sb, MPoll.pending)
      | (_, MPoll.ready select) =>
          if select then
            (pollA (callA sa req).2).map (fun r =>
              match r.2 with
              | MPoll.ready out => (BoxedCallFut.done, MPoll.ready out)
              | MPoll.pending =>
                  (BoxedCallFut.awaitingFut (MEither.left r.1), MPoll.pending))
          else
            (pollB (callB sb req).2).map (fun r =>
              match r.2 with
              | MPoll.ready out => (BoxedCallFut.done, MPoll.ready out)
              | MPoll.pending =>
                  (BoxedCallFut.awaitingFut (MEither.right r.1), MPoll.pending))
  | BoxedCallFut.awaitingFut (MEither.left fa) =>
      (pollA fa).map (fun r =>
        match r.2 with
        | MPoll.ready out => (BoxedCallFut.done, MPoll.ready out)
        | MPoll.pending =>
            (BoxedCallFut.awaitingFut (MEither.left r.1), MPoll.pending))
  | BoxedCallFut.awaitingFut (MEither.right fb) =>
      (pollB fb).map (fun r =>
        match r.2 with
        | MPoll.ready out => (BoxedCallFut.done, MPoll.ready out)
        | MPoll.pending =>
            (BoxedCallFut.awaitingFut (MEither.right r.1), MPoll.pending))
  | BoxedCallFut.done => Except.error "async block resumed after completion"

/-- The boxed implementation of `AsyncFilterService::call` (src/lib.rs, lines
383–395): obtain `self.filter.matches(&req)`, clone both services, and
return the pinned `async move` block in its initial state. -/
def AsyncFilterService.callBoxed {F σS σI T γ φS φI : Type}
    (matchesF : F → T → γ) (cloneS : σS → σS) (cloneI : σI → σI)
    (self : AsyncFilterService F σS σI) (req : T) :
    AsyncFilterService F σS σI × BoxedCallFut γ T σS σI φS φI :=
  (self,
   BoxedCallFut.awaitingCond (matchesF self.filter req) req
     (cloneS self.service) (cloneI self.inner))

/-- Drive a polled future for at most `fuel` polls: `some (n, a)` means the
output `a` became ready on the poll after `n` pending polls; `none` means the
fuel ran out; `Except.error` is a panic. -/
def runFuture {St α : Type} (step : St → Except String (St × MPoll α)) :
    Nat → St → Except String (Option (Nat × α))
  | 0, _ => Except.ok none
  | Nat.succ n, s =>
      match step s with
      | Except.error m => Except.error m
      | Except.ok (_, MPoll.ready a) => Except.ok (some (0, a))
      | Except.ok (s', MPoll.pending) =>
          match runFuture step n s' with
          | Except.error m => Except.error m
          | Except.ok none => Except.ok none
          | Except.ok (some q) => Except.ok (some (q.1 + 1, q.2))

/-- C4: both dispatchers' readiness query returns `Ready(Ok(()))` exactly when
the primary (filtered) service's `poll_ready` and the secondary (inner)
service's `poll_ready` both return `Ready(Ok(()))`; a pending or failing
downstream readiness check means the combined unit is not reported ready. -/
theorem poll_ready_ready_iff_both {F σS σI E : Type}
    (prS : σS → σS × MPoll (Except E Unit))
    (prI : σI → σI × MPoll (Except E Unit))
    (self : FilterService F σS σI) (aself : AsyncFilterService F σS σI) :
    ((FilterService.poll_ready prS prI self).2 = MPoll.ready (Except.ok ()) ↔
      (prS self.service).2 = MPoll.ready (Except.ok ()) ∧
      (prI self.inner).2 = MPoll.ready (Except.ok ())) ∧
    ((AsyncFilterService.poll_ready prS prI aself).2 = MPoll.ready (Except.ok ()) ↔
      (prS aself.service).2 = MPoll.ready (Except.ok ()) ∧
      (prI aself.inner).2 = MPoll.ready (Except.ok ())) := by
  constructor
  · unfold FilterService.poll_ready
    rcases hS : prS self.service with ⟨s', ps⟩
    rcases ps with a | _
    · rcases a with e | u
      · simp
      · rcases hI : prI self.inner with ⟨i', pi⟩
        rcases pi with a' | _
        · rcases a' with e | u' <;> simp
        · simp
    · simp
  · unfold AsyncFilterService.poll_ready
    rcases hS : prS aself.service with ⟨s', ps⟩
    rcases ps with a | _
    · rcases a with e | u
      · simp
      · rcases hI : prI aself.inner with ⟨i', pi⟩
        rcases pi with a' | _
        · rcases a' with e | u' <;> simp
        · simp
    · simp

/-- Witness for C4: with both downstream services immediately ready, the
combined readiness query reports ready. -/
theorem poll_ready_ready_iff_both_witness :
    (FilterService.poll_ready
        (fun (s : Nat) => (s, MPoll.ready (Except.ok ())))
        (fun (i : Nat) => (i, MPoll.ready (Except.ok ())))
        (FilterService.mk (0 : Nat) (1 : Nat) (2 : Nat))).2 =
      MPoll.ready (Except.ok (ε := String) ()) :=
  (poll_ready_ready_iff_both _ _ _ (AsyncFilterService.mk 0 1 2)).1.mpr ⟨rfl, rfl⟩

/-- C10: both readiness queries poll the primary (filtered) service first; if
that is pending or errors, the secondary (inner) service is not polled on
that call (its state occurs unchanged in the result and the outcome does not
depend on `prI`), and a readiness error from either service is returned
immediately as the combined readiness error. -/
theorem poll_ready_primary_first_short_circuit {F σS σI E : Type}
    (prS : σS → σS × MPoll (Except E Unit))
    (prI : σI → σI × MPoll (Except E Unit))
    (self : FilterService F σS σI) (aself : AsyncFilterService F σS σI) :
    ((prS self.service).2 = MPoll.pending →
      FilterService.poll_ready prS prI self =
        (FilterService.mk self.filter (prS self.service).1 self.inner,
         MPoll.pending)) ∧
    (∀ e : E, (prS self.service).2 = MPoll.ready (Except.error e) →
      FilterService.poll_ready prS prI self =
        (FilterService.mk self.filter (prS self.service).1 self.inner,
         MPoll.ready (Except.error e))) ∧
    (∀ e : E, (prS self.service).2 = MPoll.ready (Except.ok ()) →
      (prI self.inner).2 = MPoll.ready (Except.error e) →
      (FilterService.poll_ready prS prI self).2 = MPoll.ready (Except.error e)) ∧
    ((prS aself.service).2 = MPoll.pending →
      AsyncFilterService.poll_ready prS prI aself =
        (AsyncFilterService.mk aself.filter (prS aself.service).1 aself.inner,
         MPoll.pending)) ∧
    (∀ e : E, (prS aself.service).2 = MPoll.ready (Except.error e) →
      AsyncFilterService.poll_ready prS prI aself =
        (AsyncFilterService.mk aself.filter (prS aself.service).1 aself.inner,
         MPoll.ready (Except.error e))) ∧
    (∀ e : E, (prS aself.service).2 = MPoll.ready (Except.ok ()) →
      (prI aself.inner).2 = MPoll.ready (Except.error e) →
      (AsyncFilterService.poll_ready prS prI aself).2 = MPoll.ready (Except.error e)) := by
  refine ⟨?_, ?_, ?_, ?_, ?_, ?_⟩
  · intro h
    unfold FilterService.poll_ready
    rcases hS : prS self.service with ⟨s', ps⟩
    rw [hS] at h
    simp only at h
    subst h
    rfl
  · intro e h
    unfold FilterService.poll_ready
    rcases hS : prS self.service with ⟨s', ps⟩
    rw [hS] at h
    simp only at h
    subst h
    rfl
  · intro e h1 h2
    unfold FilterService.poll_ready
    rcases hS : prS self.service with ⟨s', ps⟩
    rw [hS] at h1
    simp only at h1
    subst h1
    rcases hI : prI self.inner with ⟨i', pi⟩
    rw [hI] at h2
    simp only at h2
    subst h2
    rfl
  · intro h
    unfold AsyncFilterService.poll_ready
    rcases hS : prS aself.service with ⟨s', ps⟩
    rw [hS] at h
    simp only at h
    subst h
    rfl
  · intro e h
    unfold AsyncFilterService.poll_ready
    rcases hS : prS aself.service with ⟨s', ps⟩
    rw [hS] at h
    simp only at h
    subst h
    rfl
  · intro e h1 h2
    unfold AsyncFilterService.poll_ready
    rcases hS : prS aself.service with ⟨s', ps⟩
    rw [hS] at h1
    simp only at h1
    subst h1
    rcases hI : prI aself.inner with ⟨i', pi⟩
    rw [hI] at h2
    simp only at h2
    subst h2
    rfl

/-- Witness for C10: a primary service whose readiness is pending
short-circuits the query, leaving the inner service untouched. -/
theorem poll_ready_primary_first_short_circuit_witness :
    FilterService.poll_ready
        (fun (s : Nat) => (s + 1, MPoll.pending))
        (fun (i : Nat) => (i + 7, MPoll.ready (Except.ok (ε := String) ())))
        (FilterService.mk (0 : Nat) (1 : Nat) (2 : Nat)) =
      (FilterService.mk 0 2 2, MPoll.pending) :=
  (poll_ready_primary_first_short_circuit _ _ _ (AsyncFilterService.mk 0 1 2)).1 rfl

/-- C7: the asynchronous dispatcher's `call` is a pure constructor: it returns
immediately the state machine in its initial AwaitingPredicate shape — the
predicate future obtained from the request, the request still owned
(`value = some req`), fresh clones of both services held
(`services = some (clone service, clone inner)`), and no handler future
(`future = none`). No service `call` method is applied, so neither handler is
invoked during dispatch. -/
theorem async_call_constructs_awaiting_predicate {F σS σI T γ φS φI : Type}
    (matchesF : F → T → γ) (cloneS : σS → σS) (cloneI : σI → σI)
    (self : AsyncFilterService F σS σI) (req : T) :
    @AsyncFilterService.call F σS σI T γ φS φI matchesF cloneS cloneI self req =
      (self,
       SelectServiceAndCallFut.mk (matchesF self.filter req) (some req)
         (some (cloneS self.service, cloneI self.inner)) none) := rfl

/-- C9: polling the state machine again after it has produced its result is
fatal rather than a silent repeated delivery: the machine keeps no terminal
state of its own and re-polls the stored (already completed) handler future,
which — for the crate's own `futures::future::ready`-based services — panics.
Concretely, with an immediately-true predicate and the crate's `TestService`,
the first poll yields `Ready(Ok("first"))` and the next poll panics with the
completed future's message. -/
theorem poll_after_completion_fatal :
    SelectServiceAndCallFut.poll DelayFut.poll TestService.call TestService.call
        ReadyFut.poll ReadyFut.poll
        (SelectServiceAndCallFut.new (DelayFut.mk 0 true) "value" "first" "second") =
      Except.ok
        (SelectServiceAndCallFut.mk (DelayFut.mk 0 true) none none
           (some (MEither.left (ReadyFut.mk none))),
         MPoll.ready (Except.ok "first")) ∧
    @SelectServiceAndCallFut.poll (DelayFut Bool) String String String
        (ReadyFut (Except Empty String)) (ReadyFut (Except Empty String)) String Empty
        DelayFut.poll TestService.call TestService.call ReadyFut.poll ReadyFut.poll
        (SelectServiceAndCallFut.mk (DelayFut.mk 0 true) none none
           (some (MEither.left (ReadyFut.mk none)))) =
      Except.error "Ready polled after completion" :=
  ⟨rfl, rfl⟩

/-- C5: the dispatchers introduce no result of their own. Synchronously, the
returned future is exactly the selected handler's future (so its eventual
`Result`, success or failure, is the handler's verbatim). Asynchronously, the
state machine forwards the selected handler's poll output unchanged, both on
the transition poll (the condition just resolved, the handler future's very
first output is returned as-is) and on every later poll of the stored
handler future. -/
theorem handler_result_propagated_verbatim {F σS σI T φS φI γ σA σB φA φB R E : Type}
    (matchesF : F → T → Bool)
    (callS : σS → T → σS × φS) (callI : σI → T → σI × φI)
    (selfS : FilterService F σS σI) (req : T)
    (pollC : γ → γ × MPoll Bool)
    (callA : σA → T → σA × φA) (callB : σB → T → σB × φB)
    (pollA : φA → Except String (φA × MPoll (Except E R)))
    (pollB : φB → Except String (φB × MPoll (Except E R))) :
    (matchesF selfS.filter req = true →
      (FilterService.call matchesF callS callI selfS req).2 =
        MEither.left (callS selfS.service req).2) ∧
    (matchesF selfS.filter req = false →
      (FilterService.call matchesF callS callI selfS req).2 =
        MEither.right (callI selfS.inner req).2) ∧
    (∀ (s : SelectServiceAndCallFut γ T σA σB φA φB) (fa : φA)
        (r : φA × MPoll (Except E R)),
      s.future = some (MEither.left fa) → pollA fa = Except.ok r →
      SelectServiceAndCallFut.poll pollC callA callB pollA pollB s =
        Except.ok (SelectServiceAndCallFut.mk s.condition s.value s.services
          (some (MEither.left r.1)), r.2)) ∧
    (∀ (s : SelectServiceAndCallFut γ T σA σB φA φB) (fb : φB)
        (r : φB × MPoll (Except E R)),
      s.future = some (MEither.right fb) → pollB fb = Except.ok r →
      SelectServiceAndCallFut.poll pollC callA callB pollA pollB s =
        Except.ok (SelectServiceAndCallFut.mk s.condition s.value s.services
          (some (MEither.right r.1)), r.2)) ∧
    (∀ (c : γ) (v : T) (sa : σA) (sb : σB) (r : φA × MPoll (Except E R)),
      (pollC c).2 = MPoll.ready true → pollA (callA sa v).2 = Except.ok r →
      SelectServiceAndCallFut.poll pollC callA callB pollA pollB
          (SelectServiceAndCallFut.mk c (some v) (some (sa, sb)) none) =
        Except.ok (SelectServiceAndCallFut.mk (pollC c).1 none none
          (some (MEither.left r.1)), r.2)) ∧
    (∀ (c : γ) (v : T) (sa : σA) (sb : σB) (r : φB × MPoll (Except E R)),
      (pollC c).2 = MPoll.ready false → pollB (callB sb v).2 = Except.ok r →
      SelectServiceAndCallFut.poll pollC callA callB pollA pollB
          (SelectServiceAndCallFut.mk c (some v) (some (sa, sb)) none) =
        Except.ok (SelectServiceAndCallFut.mk (pollC c).1 none none
          (some (MEither.right r.1)), r.2)) := by
  refine ⟨?_, ?_, ?_, ?_, ?_, ?_⟩
  · intro h
    simp [FilterService.call, h]
  · intro h
    simp [FilterService.call, h]
  · intro s fa r hf hr
    rcases s with ⟨c, vv, ss, ff⟩
    simp only at hf
    subst hf
    simp [SelectServiceAndCallFut.poll, hr, Except.map]
  · intro s fb r hf hr
    rcases s with ⟨c, vv, ss, ff⟩
    simp only at hf
    subst hf
    simp [SelectServiceAndCallFut.poll, hr, Except.map]
  · intro c v sa sb r hc hr
    rcases hpc : pollC c with ⟨c', pc⟩
    rw [hpc] at hc
    simp only at hc
    subst hc
    simp [SelectServiceAndCallFut.poll, hpc, hr, Except.map]
  · intro c v sa sb r hc hr
    rcases hpc : pollC c with ⟨c', pc⟩
    rw [hpc] at hc
    simp only at hc
    subst hc
    simp [SelectServiceAndCallFut.poll, hpc, hr, Except.map]

/-- Witness for C5: a concrete fall-through dispatch whose error is returned
verbatim by the synchronous dispatcher. -/
theorem handler_result_propagated_verbatim_witness :
    (FilterService.call (fun (f : Bool) (_ : Nat) => f)
        (fun (s : Nat) (r : Nat) => (s, r + 1)) (fun (s : Nat) (r : Nat) => (s, r + 2))
        (FilterService.mk false 10 20) 5).2 = MEither.right 7 :=
  ((handler_result_propagated_verbatim (fun f _ => f)
      (fun (s : Nat) (r : Nat) => (s, r + 1)) (fun (s : Nat) (r : Nat) => (s, r + 2))
      (FilterService.mk false 10 20) 5
      (fun (c : Unit) => (c, MPoll.ready true))
      (fun (s : Unit) (_ : Nat) => (s, ()))
      (fun (s : Unit) (_ : Nat) => (s, ()))
      (fun (_ : Unit) => Except.ok ((), MPoll.ready (Except.ok (ε := Unit) (0 : Nat))))
      (fun (_ : Unit) => Except.ok ((), MPoll.ready (Except.ok (0 : Nat))))).2.1) rfl

/-- C6: once the state machine holds a handler future (`future` is `Some`),
each poll is exactly one poll of that stored future with its output forwarded
unchanged, and the outcome is independent of the predicate poll, of the
dispatch decision and of both services' `call` methods (they may be replaced
by arbitrary `pollC'`, `callA'`, `callB'` without changing the result): the
predicate is never polled again and no handler is ever invoked again. -/
theorem awaiting_handler_only_polls_stored {γ T σA σB φA φB R E : Type}
    (pollC pollC' : γ → γ × MPoll Bool)
    (callA callA' : σA → T → σA × φA) (callB callB' : σB → T → σB × φB)
    (pollA : φA → Except String (φA × MPoll (Except E R)))
    (pollB : φB → Except String (φB × MPoll (Except E R)))
    (s : SelectServiceAndCallFut γ T σA σB φA φB) :
    (∀ fa : φA, s.future = some (MEither.left fa) →
      SelectServiceAndCallFut.poll pollC callA callB pollA pollB s =
        (pollA fa).map (fun r =>
          (SelectServiceAndCallFut.mk s.condition s.value s.services
            (some (MEither.left r.1)), r.2)) ∧
      SelectServiceAndCallFut.poll pollC callA callB pollA pollB s =
        SelectServiceAndCallFut.poll pollC' callA' callB' pollA pollB s) ∧
    (∀ fb : φB, s.future = some (MEither.right fb) →
      SelectServiceAndCallFut.poll pollC callA callB pollA pollB s =
        (pollB fb).map (fun r =>
          (SelectServiceAndCallFut.mk s.condition s.value s.services
            (some (MEither.right r.1)), r.2)) ∧
      SelectServiceAndCallFut.poll pollC callA callB pollA pollB s =
        SelectServiceAndCallFut.poll pollC' callA' callB' pollA pollB s) := by
  constructor
  · intro fa hf
    rcases s with ⟨c, vv, ss, ff⟩
    simp only at hf
    subst hf
    exact ⟨rfl, rfl⟩
  · intro fb hf
    rcases s with ⟨c, vv, ss, ff⟩
    simp only at hf
    subst hf
    exact ⟨rfl, rfl⟩

/-- Witness for C6: a machine already holding a completed primary-handler
future forwards that future's output, whatever dictionaries are supplied for
the predicate and the service calls. -/
theorem awaiting_handler_only_polls_stored_witness :
    SelectServiceAndCallFut.poll DelayFut.poll TestService.call TestService.call
        ReadyFut.poll ReadyFut.poll
        (SelectServiceAndCallFut.mk (DelayFut.mk 4 false) none none
           (some (MEither.left (ReadyFut.mk (some (Except.ok "first")))))) =
      (ReadyFut.poll (ReadyFut.mk (some (Except.ok (ε := Empty) "first")))).map (fun r =>
        (SelectServiceAndCallFut.mk (DelayFut.mk 4 false) (none : Option String)
          (none : Option (String × String)) (some (MEither.left r.1)), r.2)) :=
  ((awaiting_handler_only_polls_stored DelayFut.poll DelayFut.poll
      TestService.call TestService.call TestService.call TestService.call
      ReadyFut.poll ReadyFut.poll
      (SelectServiceAndCallFut.mk (DelayFut.mk 4 false) none none
        (some (MEither.left (ReadyFut.mk (some (Except.ok "first"))))))).1
    (ReadyFut.mk (some (Except.ok "first"))) rfl).1

/-- Helper: while the predicate's `DelayFut` counter is positive, each poll of
the machine only decrements the counter and reports pending, leaving the
request, the services and the (absent) handler future untouched. -/
theorem select_delay_trace {T σA σB φA φB R E : Type} (b : Bool)
    (callA : σA → T → σA × φA) (callB : σB → T → σB × φB)
    (pollA : φA → Except String (φA × MPoll (Except E R)))
    (pollB : φB → Except String (φB × MPoll (Except E R)))
    (v : T) (sa : σA) (sb : σB) (k : Nat) :
    SelectServiceAndCallFut.pollTrace DelayFut.poll callA callB pollA pollB k
        (SelectServiceAndCallFut.mk (DelayFut.mk k b) (some v) (some (sa, sb)) none) =
      Except.ok
        (SelectServiceAndCallFut.mk (DelayFut.mk 0 b) (some v) (some (sa, sb)) none,
         List.replicate k MPoll.pending) := by
  induction k with
  | zero => rfl
  | succ k ih =>
      simp [SelectServiceAndCallFut.pollTrace, SelectServiceAndCallFut.poll,
        DelayFut.poll, ih, List.replicate]

/-- C2: with a predicate future that needs `N` poll cycles to resolve to `b`,
the dispatch future reports pending on each of the first `N − 1` polls while
leaving the request and both services untouched and invoking no handler (the
trace is independent of `callA`, `callB`, `pollA`, `pollB`), and the `N`-th
poll resolves the predicate and — within that same poll — invokes exactly the
selected handler with the stored request and polls its future once. -/
theorem select_fut_suspension_exact {T σA σB φA φB R E : Type}
    (N : Nat) (_hN : 0 < N) (b : Bool)
    (callA : σA → T → σA × φA) (callB : σB → T → σB × φB)
    (pollA : φA → Except String (φA × MPoll (Except E R)))
    (pollB : φB → Except String (φB × MPoll (Except E R)))
    (v : T) (sa : σA) (sb : σB) :
    SelectServiceAndCallFut.pollTrace DelayFut.poll callA callB pollA pollB (N - 1)
        (SelectServiceAndCallFut.new (DelayFut.mk (N - 1) b) v sa sb) =
      Except.ok
        (SelectServiceAndCallFut.mk (DelayFut.mk 0 b) (some v) (some (sa, sb)) none,
         List.replicate (N - 1) MPoll.pending) ∧
    SelectServiceAndCallFut.poll DelayFut.poll callA callB pollA pollB
        (SelectServiceAndCallFut.mk (DelayFut.mk 0 b) (some v) (some (sa, sb)) none) =
      (if b then
        (pollA (callA sa v).2).map (fun r =>
          (SelectServiceAndCallFut.mk (DelayFut.mk 0 b) none none
            (some (MEither.left r.1)), r.2))
      else
        (pollB (callB sb v).2).map (fun r =>
          (SelectServiceAndCallFut.mk (DelayFut.mk 0 b) none none
            (some (MEither.right r.1)), r.2))) := by
  constructor
  · exact select_delay_trace b callA callB pollA pollB v sa sb (N - 1)
  · cases b <;> rfl

/-- Witness for C2 (the spec's Scenario D): a predicate resolving `true` after
two scheduler turns makes the dispatch future pend exactly twice, and the
third poll invokes the primary `TestService` and returns its result. -/
theorem select_fut_suspension_exact_witness :
    SelectServiceAndCallFut.pollTrace DelayFut.poll TestService.call TestService.call
        ReadyFut.poll ReadyFut.poll (3 - 1)
        (SelectServiceAndCallFut.new (DelayFut.mk (3 - 1) true) "value" "first" "second") =
      Except.ok
        (SelectServiceAndCallFut.mk (DelayFut.mk 0 true) (some "value")
           (some ("first", "second")) none,
         List.replicate (3 - 1) MPoll.pending) ∧
    SelectServiceAndCallFut.poll DelayFut.poll TestService.call TestService.call
        ReadyFut.poll ReadyFut.poll
        (SelectServiceAndCallFut.mk (DelayFut.mk 0 true) (some "value")
           (some ("first", "second")) none) =
      (if true then
        (ReadyFut.poll (TestService.call "first" "value").2).map (fun r =>
          (SelectServiceAndCallFut.mk (DelayFut.mk 0 true) none none
            (some (MEither.left r.1)), r.2))
      else
        (ReadyFut.poll (TestService.call "second" "value").2).map (fun r =>
          (SelectServiceAndCallFut.mk (DelayFut.mk 0 true) none none
            (some (MEither.right r.1)), r.2))) :=
  select_fut_suspension_exact 3 (by decide) true TestService.call TestService.call
    ReadyFut.poll ReadyFut.poll "value" "first" "second"

/-- C3: in every state reachable from `new` by polling, `value` and
`services` are `Some` whenever `future` is `None` (the crate's stated
invariant), and consequently a poll can only panic by propagating a panic of
one of the handler futures — the machine's own two `expect` calls (the
"Invariant violation" panics) never fire. -/
theorem select_fut_invariant_reachable {γ T σA σB φA φB R E : Type}
    (pollC : γ → γ × MPoll Bool)
    (callA : σA → T → σA × φA) (callB : σB → T → σB × φB)
    (pollA : φA → Except String (φA × MPoll (Except E R)))
    (pollB : φB → Except String (φB × MPoll (Except E R)))
    (s : SelectServiceAndCallFut γ T σA σB φA φB)
    (h : SelectReachable pollC callA callB pollA pollB s) :
    (s.future = none → s.value.isSome = true ∧ s.services.isSome = true) ∧
    (∀ m : String,
      SelectServiceAndCallFut.poll pollC callA callB pollA pollB s = Except.error m →
      (∃ fa, pollA fa = Except.error m) ∨ (∃ fb, pollB fb = Except.error m)) := by
  have inv : ∀ t : SelectServiceAndCallFut γ T σA σB φA φB,
      SelectReachable pollC callA callB pollA pollB t →
      t.future = none → t.value.isSome = true ∧ t.services.isSome = true := by
    intro t ht
    induction ht with
    | init c v sa sb => intro _; exact ⟨rfl, rfl⟩
    | step t t' p ht hpoll ih =>
        intro hf'
        rcases t with ⟨c, vv, ss, ff⟩
        rcases ff with _ | f
        · obtain ⟨hv, hs⟩ := ih rfl
          rcases vv with _ | v
          · simp at hv
          rcases ss with _ | svcs
          · simp at hs
          rcases hpc : pollC c with ⟨c', pc⟩
          rcases pc with bsel | _
          · cases bsel
            · simp only [SelectServiceAndCallFut.poll, hpc] at hpoll
              simp only [Bool.false_eq_true, if_false] at hpoll
              rcases hfb : pollB (callB svcs.2 v).2 with m | r
              · rw [hfb] at hpoll
                simp [Except.map] at hpoll
              · rw [hfb] at hpoll
                simp only [Except.map, Except.ok.injEq, Prod.mk.injEq] at hpoll
                obtain ⟨h1, h2⟩ := hpoll
                rw [← h1] at hf'
                simp at hf'
            · simp only [SelectServiceAndCallFut.poll, hpc] at hpoll
              simp only [if_true] at hpoll
              rcases hfa : pollA (callA svcs.1 v).2 with m | r
              · rw [hfa] at hpoll
                simp [Except.map] at hpoll
              · rw [hfa] at hpoll
                simp only [Except.map, Except.ok.injEq, Prod.mk.injEq] at hpoll
                obtain ⟨h1, h2⟩ := hpoll
                rw [← h1] at hf'
                simp at hf'
          · simp only [SelectServiceAndCallFut.poll, hpc] at hpoll
            simp only [Except.ok.injEq, Prod.mk.injEq] at hpoll
            obtain ⟨h1, h2⟩ := hpoll
            rw [← h1]
            exact ⟨rfl, rfl⟩
        · rcases f with fa | fb
          · simp only [SelectServiceAndCallFut.poll] at hpoll
            rcases hfa : pollA fa with m | r
            · rw [hfa] at hpoll
              simp [Except.map] at hpoll
            · rw [hfa] at hpoll
              simp only [Except.map, Except.ok.injEq, Prod.mk.injEq] at hpoll
              obtain ⟨h1, h2⟩ := hpoll
              rw [← h1] at hf'
              simp at hf'
          · simp only [SelectServiceAndCallFut.poll] at hpoll
            rcases hfb : pollB fb with m | r
            · rw [hfb] at hpoll
              simp [Except.map] at hpoll
            · rw [hfb] at hpoll
              simp only [Except.map, Except.ok.injEq, Prod.mk.injEq] at hpoll
              obtain ⟨h1, h2⟩ := hpoll
              rw [← h1] at hf'
              simp at hf'
  refine ⟨inv s h, ?_⟩
  intro m hpe
  rcases s with ⟨c, vv, ss, ff⟩
  rcases ff with _ | f
  · obtain ⟨hv, hs⟩ := inv _ h rfl
    rcases vv with _ | v
    · simp at hv
    rcases ss with _ | svcs
    · simp at hs
    rcases hpc : pollC c with ⟨c', pc⟩
    rcases pc with bsel | _
    · cases bsel
      · simp only [SelectServiceAndCallFut.poll, hpc] at hpe
        simp only [Bool.false_eq_true, if_false] at hpe
        rcases hfb : pollB (callB svcs.2 v).2 with m' | r
        · rw [hfb] at hpe
          simp only [Except.map, Except.error.injEq] at hpe
          rw [hpe] at hfb
          exact Or.inr ⟨(callB svcs.2 v).2, hfb⟩
        · rw [hfb] at hpe
          simp [Except.map] at hpe
      · simp only [SelectServiceAndCallFut.poll, hpc] at hpe
        simp only [if_true] at hpe
        rcases hfa : pollA (callA svcs.1 v).2 with m' | r
        · rw [hfa] at hpe
          simp only [Except.map, Except.error.injEq] at hpe
          rw [hpe] at hfa
          exact Or.inl ⟨(callA svcs.1 v).2, hfa⟩
        · rw [hfa] at hpe
          simp [Except.map] at hpe
    · simp only [SelectServiceAndCallFut.poll, hpc] at hpe
      simp at hpe
  · rcases f with fa | fb
    · simp only [SelectServiceAndCallFut.poll] at hpe
      rcases hfa : pollA fa with m' | r
      · rw [hfa] at hpe
        simp only [Except.map, Except.error.injEq] at hpe
        rw [hpe] at hfa
        exact Or.inl ⟨fa, hfa⟩
      · rw [hfa] at hpe
        simp [Except.map] at hpe
    · simp only [SelectServiceAndCallFut.poll] at hpe
      rcases hfb : pollB fb with m' | r
      · rw [hfb] at hpe
        simp only [Except.map, Except.error.injEq] at hpe
        rw [hpe] at hfb
        exact Or.inr ⟨fb, hfb⟩
      · rw [hfb] at hpe
        simp [Except.map] at hpe

/-- Witness for C3: the invariant holds at a concrete freshly constructed
machine, which is reachable by construction. -/
theorem select_fut_invariant_reachable_witness :
    ((@SelectServiceAndCallFut.new (DelayFut Bool) String String String
        (ReadyFut (Except Empty String)) (ReadyFut (Except Empty String))
        (DelayFut.mk 2 true) "value" "first" "second").future = none →
      (@SelectServiceAndCallFut.new (DelayFut Bool) String String String
        (ReadyFut (Except Empty String)) (ReadyFut (Except Empty String))
        (DelayFut.mk 2 true) "value" "first" "second").value.isSome = true ∧
      (@SelectServiceAndCallFut.new (DelayFut Bool) String String String
        (ReadyFut (Except Empty String)) (ReadyFut (Except Empty String))
        (DelayFut.mk 2 true) "value" "first" "second").services.isSome = true) ∧
    (∀ m : String,
      SelectServiceAndCallFut.poll DelayFut.poll TestService.call TestService.call
          ReadyFut.poll ReadyFut.poll
          (SelectServiceAndCallFut.new (DelayFut.mk 2 true) "value" "first" "second") =
        Except.error m →
      (∃ fa : ReadyFut (Except Empty String), ReadyFut.poll fa = Except.error m) ∨
      (∃ fb : ReadyFut (Except Empty String), ReadyFut.poll fb = Except.error m)) :=
  select_fut_invariant_reachable DelayFut.poll TestService.call TestService.call
    ReadyFut.poll ReadyFut.poll _
    (SelectReachable.init (DelayFut.mk 2 true) "value" "first" "second")

/-- Helper for the boxed/hand-rolled equivalence: once both machines hold the
selected handler's future, they run identically; the residual fields of the
hand-rolled machine do not influence its behaviour. -/
theorem runFuture_awaitingFut_eq {γ T σA σB φA φB R E : Type}
    (pollC : γ → γ × MPoll Bool)
    (callA : σA → T → σA × φA) (callB : σB → T → σB × φB)
    (pollA : φA → Except String (φA × MPoll (Except E R)))
    (pollB : φB → Except String (φB × MPoll (Except E R)))
    (fuel : Nat) :
    ∀ (f : MEither φA φB) (c : γ) (vv : Option T) (ss : Option (σA × σB)),
      runFuture (BoxedCallFut.poll pollC callA callB pollA pollB) fuel
        (BoxedCallFut.awaitingFut f) =
      runFuture (SelectServiceAndCallFut.poll pollC callA callB pollA pollB) fuel
        (SelectServiceAndCallFut.mk c vv ss (some f)) := by
  induction fuel with
  | zero => intro f c vv ss; rfl
  | succ n ih =>
      intro f c vv ss
      rcases f with fa | fb
      · simp only [runFuture, BoxedCallFut.poll, SelectServiceAndCallFut.poll]
        rcases hfa : pollA fa with m | r
        · simp [Except.map]
        · rcases r with ⟨fa', p⟩
          rcases p with out | _
          · simp [Except.map]
          · simp only [Except.map]
            rw [ih (MEither.left fa') c vv ss]
      · simp only [runFuture, BoxedCallFut.poll, SelectServiceAndCallFut.poll]
        rcases hfb : pollB fb with m | r
        · simp [Except.map]
        · rcases r with ⟨fb', p⟩
          rcases p with out | _
          · simp [Except.map]
          · simp only [Except.map]
            rw [ih (MEither.right fb') c vv ss]

/-- Helper for the boxed/hand-rolled equivalence: from their respective
initial states the two machines agree for any amount of fuel. -/
theorem runFuture_boxed_eq_select {γ T σA σB φA φB R E : Type}
    (pollC : γ → γ × MPoll Bool)
    (callA : σA → T → σA × φA) (callB : σB → T → σB × φB)
    (pollA : φA → Except String (φA × MPoll (Except E R)))
    (pollB : φB → Except String (φB × MPoll (Except E R)))
    (fuel : Nat) :
    ∀ (c : γ) (v : T) (sa : σA) (sb : σB),
      runFuture (BoxedCallFut.poll pollC callA callB pollA pollB) fuel
        (BoxedCallFut.awaitingCond c v sa sb) =
      runFuture (SelectServiceAndCallFut.poll pollC callA callB pollA pollB) fuel
        (SelectServiceAndCallFut.new c v sa sb) := by
  induction fuel with
  | zero => intro c v sa sb; rfl
  | succ n ih =>
      intro c v sa sb
      simp only [runFuture, BoxedCallFut.poll, SelectServiceAndCallFut.poll,
        SelectServiceAndCallFut.new]
      rcases hpc : pollC c with ⟨c', pc⟩
      rcases pc with bsel | _
      · cases bsel
        · simp only [Bool.false_eq_true, if_false]
          rcases hfb : pollB (callB sb v).2 with m | r
          · simp [Except.map]
          · rcases r with ⟨fb', p⟩
            rcases p with out | _
            · simp [Except.map]
            · simp only [Except.map]
              rw [runFuture_awaitingFut_eq pollC callA callB pollA pollB n
                (MEither.right fb') c' none none]
        · simp only [if_true]
          rcases hfa : pollA (callA sa v).2 with m | r
          · simp [Except.map]
          · rcases r with ⟨fa', p⟩
            rcases p with out | _
            · simp [Except.map]
            · simp only [Except.map]
              rw [runFuture_awaitingFut_eq pollC callA callB pollA pollB n
                (MEither.left fa') c' none none]
      · simp only []
        rw [ih c' v sa sb]
        rfl

/-- C8: the boxed (heap-erased `async move` block) implementation of
`AsyncFilterService::call` and the hand-rolled `SelectServiceAndCallFut`
state machine are behaviorally equivalent: for every predicate future, every
request, every pair of services and every amount of polling, the two pending
computations report pending the same number of times, invoke the same single
handler with the same request, propagate the same panics, and produce the
same final `Result`. -/
theorem boxed_equiv_handrolled {F σS σI T γ φS φI R E : Type}
    (matchesF : F → T → γ) (cloneS : σS → σS) (cloneI : σI → σI)
    (pollC : γ → γ × MPoll Bool)
    (callA : σS → T → σS × φS) (callB : σI → T → σI × φI)
    (pollA : φS → Except String (φS × MPoll (Except E R)))
    (pollB : φI → Except String (φI × MPoll (Except E R)))
    (self : AsyncFilterService F σS σI) (req : T) (fuel : Nat) :
    runFuture (BoxedCallFut.poll pollC callA callB pollA pollB) fuel
        (AsyncFilterService.callBoxed matchesF cloneS cloneI self req).2 =
      runFuture (SelectServiceAndCallFut.poll pollC callA callB pollA pollB) fuel
        (AsyncFilterService.call matchesF cloneS cloneI self req).2 :=
  runFuture_boxed_eq_select pollC callA callB pollA pollB fuel
    (matchesF self.filter req) req (cloneS self.service) (cloneI self.inner)
